import Mathlib

/-!
Verification of the batch AWB-tracking job engine (server side).

The development shallowly embeds the server code:

* `src/shared/schema.ts`   — the `TrackJob` / `TrackResult` records;
* `src/server/storage.ts`  — the in-memory `MemStorage` job store
  (a JS `Map` keyed by numeric id, embedded as an insertion-ordered
  association list with replace-or-append `set` semantics);
* `src/server/tracking.ts` — `splitMAWB` and the row-processing loop of
  `processCSVFile` (CSV decoding and the HTTP lookup are external
  collaborators: rows are modelled as the already-extracted MAWB column
  values, the lookup as an oracle `Nat → Except String TrackLookup`);
* `src/server/routes.ts`   — the job-creation parameter validation and
  the job-control handler.

JS strings are modelled as `String` (lists of characters); timestamps
(`new Date()`) as an explicit `Nat` clock threaded through the calls;
thrown JS errors as `Except String`.
-/

deriving instance DecidableEq for Except

namespace Merlin

/-- Log levels used by the broadcast messages (`'info' | 'success' | 'warn' | 'error'`). -/
inductive LogLevel where
  | info
  | success
  | warn
  | error
deriving DecidableEq, Repr

/-- Job status values of `trackJobStatus` in `src/shared/schema.ts`. -/
inductive JobStatus where
  | pending
  | processing
  | completed
  | failed
  | cancelled
  | paused
deriving DecidableEq, Repr

/-- The `trackJobs` row type (`TrackJob` in `src/shared/schema.ts`). -/
structure TrackJob where
  id : Nat
  filename : String
  totalCount : Nat
  processedCount : Nat
  status : JobStatus
  createdAt : Nat
  updatedAt : Nat
deriving DecidableEq, Repr

/-- The insert shape for a job (`InsertTrackJob`): only filename and total count. -/
structure InsertTrackJob where
  filename : String
  totalCount : Nat
deriving DecidableEq, Repr

/-- The `trackResults` row type (`TrackResult` in `src/shared/schema.ts`).
Note that the schema has NO job-id column: a result carries no foreign key
to the job that produced it.  `pfx` embeds the source field `prefix`. -/
structure TrackResult where
  id : Nat
  mawb : String
  pfx : String
  awbNo : String
  status : String
  origin : String
  dest : String
  pcs : String
  grossWt : String
  lastAct : String
  lastActDt : String
  doUrl : String
  createdAt : Nat
deriving DecidableEq, Repr

/-- The insert shape for a result (`InsertTrackResult`): all fields except id
and createdAt.  `pfx` embeds the source field `prefix`. -/
structure InsertTrackResult where
  mawb : String
  pfx : String
  awbNo : String
  status : String
  origin : String
  dest : String
  pcs : String
  grossWt : String
  lastAct : String
  lastActDt : String
  doUrl : String
deriving DecidableEq, Repr

/-- The value produced by the external lookup capability
(`trackAWB` returns `Partial<TrackResult>`; `parseTrackingHTML` fills the
eight text fields, each possibly absent in the TS type). -/
structure TrackLookup where
  status : Option String
  origin : Option String
  dest : Option String
  pcs : Option String
  grossWt : Option String
  lastAct : Option String
  lastActDt : Option String
  doUrl : Option String
deriving DecidableEq, Repr

/-! ### The JS `Map` used by `MemStorage`

`Map.get` / `Map.set` with numeric keys, embedded as an association list in
insertion order: `set` replaces the value of an existing key in place and
otherwise appends at the end, exactly the JS iteration-order contract. -/

/-- JS `Map.prototype.get`. -/
def mapGet {α : Type} (m : List (Nat × α)) (k : Nat) : Option α :=
  match m with
  | [] => none
  | (k1, v) :: rest => if k1 = k then some v else mapGet rest k

/-- JS `Map.prototype.set`: replace in place, or append. -/
def mapSet {α : Type} (m : List (Nat × α)) (k : Nat) (v : α) : List (Nat × α) :=
  match m with
  | [] => [(k, v)]
  | (k1, v1) :: rest =>
    if k1 = k then (k, v) :: rest else (k1, v1) :: mapSet rest k v

/-! ### MemStorage (`src/server/storage.ts`)

The `users` table plays no part in any claim and is omitted.  Timestamps are
passed in explicitly (`now`) where the source calls `new Date()`. -/

/-- The in-memory store of `MemStorage`. -/
structure MemStorage where
  trackResults : List (Nat × TrackResult)
  trackJobs : List (Nat × TrackJob)
  currentTrackResultId : Nat
  currentTrackJobId : Nat
deriving DecidableEq, Repr

/-- The store produced by the `MemStorage` constructor. -/
def emptyStorage : MemStorage :=
  { trackResults := [], trackJobs := [], currentTrackResultId := 1, currentTrackJobId := 1 }

/-- `MemStorage.createTrackResult`: assign the next id, stamp `createdAt`, insert. -/
def createTrackResult (s : MemStorage) (ins : InsertTrackResult) (now : Nat) :
    MemStorage × TrackResult :=
  let id := s.currentTrackResultId
  let result : TrackResult :=
    { id := id, mawb := ins.mawb, pfx := ins.pfx, awbNo := ins.awbNo,
      status := ins.status, origin := ins.origin, dest := ins.dest, pcs := ins.pcs,
      grossWt := ins.grossWt, lastAct := ins.lastAct, lastActDt := ins.lastActDt,
      doUrl := ins.doUrl, createdAt := now }
  ({ s with trackResults := mapSet s.trackResults id result,
            currentTrackResultId := id + 1 }, result)

/-- `MemStorage.getTrackResultsByJob`: the source returns
`Array.from(this.trackResults.values())`, ignoring the `jobId` argument
entirely (and the schema has no job-id column to filter on). -/
def getTrackResultsByJob (s : MemStorage) (_jobId : Nat) : List TrackResult :=
  s.trackResults.map (fun p => p.2)

/-- `MemStorage.createTrackJob`: next id, zero progress, `pending`, both timestamps now. -/
def createTrackJob (s : MemStorage) (ins : InsertTrackJob) (now : Nat) :
    MemStorage × TrackJob :=
  let id := s.currentTrackJobId
  let job : TrackJob :=
    { id := id, filename := ins.filename, totalCount := ins.totalCount,
      processedCount := 0, status := JobStatus.pending, createdAt := now, updatedAt := now }
  ({ s with trackJobs := mapSet s.trackJobs id job, currentTrackJobId := id + 1 }, job)

/-- `MemStorage.getTrackJob`. -/
def getTrackJob (s : MemStorage) (id : Nat) : Option TrackJob :=
  mapGet s.trackJobs id

/-- `MemStorage.getTrackJobs`. -/
def getTrackJobs (s : MemStorage) : List TrackJob :=
  s.trackJobs.map (fun p => p.2)

/-- `MemStorage.updateTrackJobStatus`: throws when the job is missing, else
replaces only `status` and `updatedAt` and writes the job back. -/
def updateTrackJobStatus (s : MemStorage) (id : Nat) (status : JobStatus) (now : Nat) :
    Except String (MemStorage × TrackJob) :=
  match getTrackJob s id with
  | none => .error ("Track job with id " ++ toString id ++ " not found")
  | some job =>
    let updatedJob : TrackJob := { job with status := status, updatedAt := now }
    .ok ({ s with trackJobs := mapSet s.trackJobs id updatedJob }, updatedJob)

/-- `MemStorage.updateTrackJobProgress`: throws when the job is missing, else
replaces only `processedCount` and `updatedAt` and writes the job back. -/
def updateTrackJobProgress (s : MemStorage) (id : Nat) (processedCount : Nat) (now : Nat) :
    Except String (MemStorage × TrackJob) :=
  match getTrackJob s id with
  | none => .error ("Track job with id " ++ toString id ++ " not found")
  | some job =>
    let updatedJob : TrackJob := { job with processedCount := processedCount, updatedAt := now }
    .ok ({ s with trackJobs := mapSet s.trackJobs id updatedJob }, updatedJob)

/-! ### splitMAWB (`src/server/tracking.ts`, lines 12-30)

`mawb.trim().replace(/\s/g, '')`, then `split('-')` with the two-part check,
then the unanchored regex `(\d{3})[- ]?(\d{8})`, else two empty strings. -/

/-- Characters matched by the JS regexp class `\s` (ASCII part; the source
strings are ASCII identifiers). -/
def isJsWhitespace (c : Char) : Bool :=
  c = ' ' || c = '\t' || c = '\n' || c = '\r' || c = '\x0b' || c = '\x0c'

/-- JS `String.prototype.trim`: drop leading and trailing whitespace. -/
def jsTrim (l : List Char) : List Char :=
  ((l.dropWhile isJsWhitespace).reverse.dropWhile isJsWhitespace).reverse

/-- The normalisation step of `splitMAWB`: `trim()` then `replace(/\s/g, '')`
(remove every whitespace character). -/
def normalizeMAWB (l : List Char) : List Char :=
  (jsTrim l).filter (fun c => !(isJsWhitespace c))

/-- JS `String.prototype.split('-')`: the list of hyphen-separated segments,
in order, empty segments included (`"".split('-')` is `[""]`). -/
def splitHyphen (l : List Char) : List (List Char) :=
  match l with
  | [] => [[]]
  | c :: rest =>
    match splitHyphen rest with
    | [] => [[]]
    | h :: t => if c = '-' then [] :: h :: t else (c :: h) :: t

/-- Take exactly `n` decimal digits from the front of the list, returning the
digits and the remainder (the regex atoms `\d{3}` and `\d{8}`). -/
def takeDigits : Nat → List Char → Option (List Char × List Char)
  | 0, l => some ([], l)
  | _ + 1, [] => none
  | n + 1, c :: rest =>
    if c.isDigit then
      match takeDigits n rest with
      | some (ds, rem) => some (c :: ds, rem)
      | none => none
    else none

/-- Match the regex `(\d{3})[- ]?(\d{8})` at the head of the list: three
digits, then a greedy optional hyphen-or-space separator (with backtracking),
then eight digits; on success the two capture groups. -/
def matchMAWBAt (l : List Char) : Option (List Char × List Char) :=
  match takeDigits 3 l with
  | none => none
  | some (g1, rest) =>
    match rest with
    | [] => none
    | c :: rest2 =>
      if c = '-' || c = ' ' then
        match takeDigits 8 rest2 with
        | some (g2, _) => some (g1, g2)
        | none =>
          match takeDigits 8 rest with
          | some (g2, _) => some (g1, g2)
          | none => none
      else
        match takeDigits 8 rest with
        | some (g2, _) => some (g1, g2)
        | none => none

/-- The unanchored (leftmost) match of `(\d{3})[- ]?(\d{8})`, as JS
`string.match(regex)` finds it. -/
def findMAWBMatch (l : List Char) : Option (List Char × List Char) :=
  match l with
  | [] => none
  | c :: rest =>
    match matchMAWBAt (c :: rest) with
    | some g => some g
    | none => findMAWBMatch rest

/-- `splitMAWB` from `src/server/tracking.ts`: normalise, return the two
hyphen-split parts verbatim when the split has exactly two parts, otherwise
the two capture groups of the first regex match (a successful JS match with
two groups always has `matches.length === 3`), otherwise two empty strings. -/
def splitMAWB (mawb : String) : String × String :=
  let m := normalizeMAWB mawb.toList
  match splitHyphen m with
  | [a, b] => (String.mk a, String.mk b)
  | _ =>
    match findMAWBMatch m with
    | some (g1, g2) => (String.mk g1, String.mk g2)
    | none => ("", "")

/-! ### Routes (`src/server/routes.ts`)

The delay parameter of `POST /api/track/file` is validated by
`z.coerce.number().min(50).max(1000).default(100)`: absent means 100, an
out-of-range value fails the whole request (zod `min` and `max` are
validators, not clamps).  The control endpoint maps the action to a status
unconditionally and writes it through `updateTrackJobStatus`. -/

/-- The zod validation of the `delay` field: `.default(100)` when absent,
else reject below 50 or above 1000, else pass the value through. -/
def parseDelayParam (d : Option Int) : Except String Int :=
  match d with
  | none => .ok 100
  | some v =>
    if v < 50 then .error "Number must be greater than or equal to 50"
    else if v > 1000 then .error "Number must be less than or equal to 1000"
    else .ok v

/-- The `POST /api/track/file` handler up to its response: validate the body
(a zod failure is a 400 with no job created), then create the job with
`totalCount := 0`, then reply with the new job id; the parsed delay is handed
to the detached processing task. -/
def trackFileUpload (s : MemStorage) (filename : String) (d : Option Int) (now : Nat) :
    Except String (MemStorage × Nat × Int) :=
  match parseDelayParam d with
  | .error e => .error e
  | .ok delay =>
    let created := createTrackJob s { filename := filename, totalCount := 0 } now
    .ok (created.1, created.2.id, delay)

/-- Control actions accepted by `POST /api/track/jobs/:id/control`. -/
inductive ControlAction where
  | pause
  | resume
  | cancel
deriving DecidableEq, Repr

/-- The `switch (body.action)` mapping of the control handler. -/
def actionStatus : ControlAction → JobStatus
  | .pause => JobStatus.paused
  | .resume => JobStatus.processing
  | .cancel => JobStatus.cancelled

/-- The control handler: 404 when the job does not exist, otherwise write the
mapped status unconditionally (no check of the job's current state) and
return the updated job. -/
def controlJob (s : MemStorage) (jobId : Nat) (a : ControlAction) (now : Nat) :
    Except String (MemStorage × TrackJob) :=
  match getTrackJob s jobId with
  | none => .error "Job not found"
  | some _ => updateTrackJobStatus s jobId (actionStatus a) now

/-! ### Events and the row-processing loop (`src/server/tracking.ts`)

`broadcastMessage` tags every payload with the job id and fans it out to the
open WebSocket clients; the embedding records the emission sequence.  The
loop of `processCSVFile` is embedded over the list of MAWB column values
(CSV decode and header location are the opaque Row Source) with the external
`trackAWB` call as an oracle indexed by row. -/

/-- Broadcast payloads (`type: 'log' | 'progress' | 'result' | 'complete'`). -/
inductive EvPayload where
  | log (message : String) (level : LogLevel)
  | progress (current : Nat) (total : Nat)
  | result (data : InsertTrackResult)
  | complete (message : String)
deriving DecidableEq, Repr

/-- A broadcast message: `broadcastMessage` merges the job id into the payload. -/
structure Ev where
  jobId : Nat
  payload : EvPayload
deriving DecidableEq, Repr

/-- Shorthand for a log broadcast. -/
def logEv (jobId : Nat) (message : String) (level : LogLevel) : Ev :=
  { jobId := jobId, payload := EvPayload.log message level }

/-- The `InsertTrackResult` built from a successful lookup: the raw MAWB and
parsed parts carried through, every lookup field defaulted to `""` by the
source's `result.field || ''` guards. -/
def toInsertResult (mawb pfx awbNo : String) (r : TrackLookup) : InsertTrackResult :=
  { mawb := mawb, pfx := pfx, awbNo := awbNo,
    status := r.status.getD "", origin := r.origin.getD "", dest := r.dest.getD "",
    pcs := r.pcs.getD "", grossWt := r.grossWt.getD "", lastAct := r.lastAct.getD "",
    lastActDt := r.lastActDt.getD "", doUrl := r.doUrl.getD "" }

/-- The mutable state of one `processCSVFile` run: the store, the broadcast
sequence so far, the local `processedCount` variable, and the clock
standing in for `new Date()`. -/
structure LoopSt where
  store : MemStorage
  events : List Ev
  pc : Nat
  clock : Nat
deriving Repr

/-- One iteration of the `for (const record of records)` loop: increment the
local count; on parse failure emit the warn log and `continue` (skipping the
progress update and its event); otherwise emit the info log, consult the
lookup (on success persist the result and emit the success log and the
result event, on a thrown error emit the error log), and in either case
persist the new processed count and emit the progress event.  The loop reads
nothing from the job record — in particular not its status. -/
def rowStep (jobId total : Nat) (oracle : Nat → Except String TrackLookup)
    (s : LoopSt) (mawb : String) : Except String LoopSt :=
  let pc := s.pc + 1
  let parts := splitMAWB mawb
  if parts.1 = "" ∨ parts.2 = "" then
    .ok { s with
            pc := pc,
            events := s.events ++
              [logEv jobId ("[Row " ++ toString pc ++ "] Skipping invalid MAWB: " ++ mawb)
                LogLevel.warn] }
  else
    let evInfo := logEv jobId
      ("[Row " ++ toString pc ++ "] Tracking MAWB: " ++ mawb ++
        " (prefix: " ++ parts.1 ++ ", awbno: " ++ parts.2 ++ ")") LogLevel.info
    let branch : MemStorage × List Ev × Nat :=
      match oracle s.pc with
      | .ok r =>
        let ins := toInsertResult mawb parts.1 parts.2 r
        let created := createTrackResult s.store ins s.clock
        (created.1,
          [evInfo,
            logEv jobId ("[Row " ++ toString pc ++ "] Success: " ++ mawb) LogLevel.success,
            { jobId := jobId, payload := EvPayload.result ins }],
          s.clock + 1)
      | .error e =>
        (s.store,
          [evInfo,
            logEv jobId ("[Row " ++ toString pc ++ "] Error tracking " ++ mawb ++ ": " ++ e)
              LogLevel.error],
          s.clock)
    match updateTrackJobProgress branch.1 jobId pc branch.2.2 with
    | .error e => .error e
    | .ok upd =>
      .ok { store := upd.1,
            events := s.events ++ branch.2.1 ++
              [{ jobId := jobId, payload := EvPayload.progress pc total }],
            pc := pc,
            clock := branch.2.2 + 1 }

/-- The loop itself: iterate `rowStep` over the rows, propagating a thrown
error (which the source's outer catch would turn into a `failed` status). -/
def runRows (jobId total : Nat) (oracle : Nat → Except String TrackLookup)
    (s : LoopSt) : List String → Except String LoopSt
  | [] => .ok s
  | r :: rs =>
    match rowStep jobId total oracle s r with
    | .error e => .error e
    | .ok s1 => runRows jobId total oracle s1 rs

/-- The observable outcome of a `processCSVFile` run: final store, broadcast
sequence, and the returned processed count. -/
structure RunOut where
  store : MemStorage
  events : List Ev
  pc : Nat
deriving Repr

/-- `processCSVFile` after CSV decode and column location: set the status to
`processing` (note: the row total `records.length` is computed into a local
but never persisted), run the loop, then set `completed` and emit the
completion message built from the processed count. -/
def processCSVFile (store0 : MemStorage) (jobId : Nat) (records : List String)
    (oracle : Nat → Except String TrackLookup) (clock0 : Nat) : Except String RunOut :=
  match updateTrackJobStatus store0 jobId JobStatus.processing clock0 with
  | .error e => .error e
  | .ok upd1 =>
    match runRows jobId records.length oracle
        { store := upd1.1, events := [], pc := 0, clock := clock0 + 1 } records with
    | .error e => .error e
    | .ok s =>
      match updateTrackJobStatus s.store jobId JobStatus.completed s.clock with
      | .error e => .error e
      | .ok upd2 =>
        .ok { store := upd2.1,
              events := s.events ++
                [{ jobId := jobId,
                   payload := EvPayload.complete
                     ("Tracking completed. Processed " ++ toString s.pc ++ " records.") }],
              pc := s.pc }

/-- A `processCSVFile` run with a concurrent cancel request: the control
handler runs at a row boundary, after `k` rows (the loop's only suspension
points are the awaits between rows, so this is a faithful interleaving).
Alongside the outcome it returns how many events had been emitted when the
cancel was applied and the job's status right after the cancel took effect. -/
structure CancelOut where
  out : RunOut
  preEvents : Nat
  statusAfterCancel : Option JobStatus
deriving Repr

/-- Run `processCSVFile` with a cancel control action arriving after row `k`. -/
def processCSVWithCancel (store0 : MemStorage) (jobId : Nat) (records : List String)
    (oracle : Nat → Except String TrackLookup) (k : Nat) : Except String CancelOut :=
  match updateTrackJobStatus store0 jobId JobStatus.processing 0 with
  | .error e => .error e
  | .ok upd1 =>
    match runRows jobId records.length oracle
        { store := upd1.1, events := [], pc := 0, clock := 1 } (records.take k) with
    | .error e => .error e
    | .ok s1 =>
      match controlJob s1.store jobId ControlAction.cancel s1.clock with
      | .error e => .error e
      | .ok ctl =>
        match runRows jobId records.length oracle
            { store := ctl.1, events := s1.events, pc := s1.pc, clock := s1.clock + 1 }
            (records.drop k) with
        | .error e => .error e
        | .ok s2 =>
          match updateTrackJobStatus s2.store jobId JobStatus.completed s2.clock with
          | .error e => .error e
          | .ok upd2 =>
            .ok { out :=
                    { store := upd2.1,
                      events := s2.events ++
                        [{ jobId := jobId,
                           payload := EvPayload.complete
                             ("Tracking completed. Processed " ++ toString s2.pc ++
                               " records.") }],
                      pc := s2.pc },
                  preEvents := s1.events.length,
                  statusAfterCancel := (getTrackJob ctl.1 jobId).map TrackJob.status }

/-! ### Derived trace notions used by the theorems -/

/-- A row is valid for the loop when `splitMAWB` yields two non-empty parts
(the source test `if (!prefix || !awbNo)` fails). -/
def validRow (mawb : String) : Bool :=
  !((splitMAWB mawb).1 = "" || (splitMAWB mawb).2 = "")

/-- The events one iteration appends, as a pure function of the 0-based row
index `i` (the loop enters the row with `processedCount = i`). -/
def rowEvents (jobId total : Nat) (oracle : Nat → Except String TrackLookup)
    (i : Nat) (mawb : String) : List Ev :=
  let pc := i + 1
  let parts := splitMAWB mawb
  if parts.1 = "" ∨ parts.2 = "" then
    [logEv jobId ("[Row " ++ toString pc ++ "] Skipping invalid MAWB: " ++ mawb) LogLevel.warn]
  else
    let evInfo := logEv jobId
      ("[Row " ++ toString pc ++ "] Tracking MAWB: " ++ mawb ++
        " (prefix: " ++ parts.1 ++ ", awbno: " ++ parts.2 ++ ")") LogLevel.info
    (match oracle i with
      | .ok r =>
        [evInfo,
          logEv jobId ("[Row " ++ toString pc ++ "] Success: " ++ mawb) LogLevel.success,
          { jobId := jobId, payload := EvPayload.result (toInsertResult mawb parts.1 parts.2 r) }]
      | .error e =>
        [evInfo,
          logEv jobId ("[Row " ++ toString pc ++ "] Error tracking " ++ mawb ++ ": " ++ e)
            LogLevel.error]) ++
      [{ jobId := jobId, payload := EvPayload.progress pc total }]

/-- The whole broadcast trace of the loop from row index `start` on. -/
def traceFrom (jobId total : Nat) (oracle : Nat → Except String TrackLookup)
    (start : Nat) : List String → List Ev
  | [] => []
  | r :: rs => rowEvents jobId total oracle start r ++ traceFrom jobId total oracle (start + 1) rs

/-- The 0-based indices of the rows that parse, counting from `start`. -/
def validIndicesFrom (start : Nat) : List String → List Nat
  | [] => []
  | r :: rs =>
    (if validRow r then [start] else []) ++ validIndicesFrom (start + 1) rs

/-- Project the `current` field out of a progress event. -/
def progressCurrentOf (e : Ev) : Option Nat :=
  match e.payload with
  | EvPayload.progress c _ => some c
  | _ => none

/-- Whether an event is a progress broadcast. -/
def isProgressEv (e : Ev) : Bool :=
  match e.payload with
  | EvPayload.progress _ _ => true
  | _ => false

/-- Whether an event is a result broadcast. -/
def isResultEv (e : Ev) : Bool :=
  match e.payload with
  | EvPayload.result _ => true
  | _ => false

/-- The last processed count the loop persists when run over `rows` starting
at 0-based index `start`, given the previously persisted value `old`: each
parsing row overwrites it with its 1-based position, a non-parsing row leaves
it alone. -/
def lastPersisted (start : Nat) (rows : List String) (old : Nat) : Nat :=
  match rows with
  | [] => old
  | r :: rs => lastPersisted (start + 1) rs (if validRow r then start + 1 else old)

/-! ### Spec-side definitions for the refinement claims

These follow the words of the specification (or of the claim under test),
to be compared against the definitions embedded from the source. -/

/-- The number of hyphens in the (normalised) identifier: the spec phrase
"splits on a single hyphen into exactly two parts" holds exactly when this
count is one. -/
def hyphenCount : List Char → Nat
  | [] => 0
  | c :: rest => (if c = '-' then 1 else 0) + hyphenCount rest

/-- The characters before the first hyphen. -/
def beforeHyphen : List Char → List Char
  | [] => []
  | c :: rest => if c = '-' then [] else c :: beforeHyphen rest

/-- The characters after the first hyphen. -/
def afterHyphen : List Char → List Char
  | [] => []
  | c :: rest => if c = '-' then rest else afterHyphen rest

/-- The Identifier Splitter as claim C7 words it: after normalising, return
the two hyphen parts verbatim if and only if the string splits on a single
hyphen into exactly two NON-EMPTY parts; otherwise the groups of the first
unanchored regex match; otherwise both parts empty. -/
def splitSpecClaim (s : String) : String × String :=
  let m := normalizeMAWB s.toList
  if hyphenCount m = 1 ∧ beforeHyphen m ≠ [] ∧ afterHyphen m ≠ [] then
    (String.mk (beforeHyphen m), String.mk (afterHyphen m))
  else
    match findMAWBMatch m with
    | some (g1, g2) => (String.mk g1, String.mk g2)
    | none => ("", "")

/-- The Identifier Splitter as the amended claim words it: identical to
`splitSpecClaim` except that the two hyphen parts need NOT be non-empty —
a single hyphen is enough, and the parts are returned verbatim even when one
of them is empty. -/
def splitSpecAmended (s : String) : String × String :=
  let m := normalizeMAWB s.toList
  if hyphenCount m = 1 then
    (String.mk (beforeHyphen m), String.mk (afterHyphen m))
  else
    match findMAWBMatch m with
    | some (g1, g2) => (String.mk g1, String.mk g2)
    | none => ("", "")

/-- The pacing interval as claim C8 words it: clamped into [50, 1000] at the
boundary, defaulting to 100 when absent. -/
def claimClampDelay (d : Option Int) : Int :=
  min 1000 (max 50 (d.getD 100))

/-! ### Concrete fixtures used by the closed theorems and witnesses -/

/-- A fixed successful lookup record. -/
def exLookup : TrackLookup :=
  { status := some "DELIVERED", origin := some "KUL", dest := some "SIN",
    pcs := some "2", grossWt := some "10.5", lastAct := some "Delivered to consignee",
    lastActDt := some "01-May-2025", doUrl := some "" }

/-- A lookup oracle that succeeds on every row. -/
def exOracleOK : Nat → Except String TrackLookup := fun _ => Except.ok exLookup

/-- A lookup oracle whose call for the first row throws. -/
def exOracleFail0 : Nat → Except String TrackLookup :=
  fun i => if i = 0 then Except.error "network timeout" else Except.ok exLookup

/-- A store holding one freshly created job (id 1, status pending, total 0),
as `POST /api/track/file` creates it. -/
def exStorage : MemStorage :=
  (createTrackJob emptyStorage { filename := "test.csv", totalCount := 0 } 0).1

/-- The job record created into `exStorage`. -/
def exJob1 : TrackJob :=
  (createTrackJob emptyStorage { filename := "test.csv", totalCount := 0 } 0).2

/-- Three valid rows. -/
def exRecords3 : List String := ["111-22222222", "222-33333333", "333-44444444"]

/-- The three-row run with a cancel control action arriving after row 1. -/
def exCancelRun : Except String CancelOut :=
  processCSVWithCancel exStorage 1 exRecords3 exOracleOK 1

/-- A run whose single row has an unparsable identifier. -/
def exRunInvalid : Except String RunOut :=
  processCSVFile exStorage 1 ["bad"] exOracleOK 0

/-- A run over a single valid row. -/
def exRunSingle : Except String RunOut :=
  processCSVFile exStorage 1 ["111-22222222"] exOracleOK 0

/-- A result row as persisted while job 1 processes `111-22222222`. -/
def exInsert : InsertTrackResult := toInsertResult "111-22222222" "111" "22222222" exLookup

/-- A store with two jobs, where a result was persisted during job 1's run:
the fixture for the result-query claim. -/
def c3storage : MemStorage :=
  let a := createTrackJob emptyStorage { filename := "a.csv", totalCount := 0 } 0
  let b := createTrackJob a.1 { filename := "b.csv", totalCount := 0 } 1
  (createTrackResult b.1 exInsert 2).1

/-- A store whose only job (id 1) has reached the terminal status
`completed`. -/
def c4storage : MemStorage :=
  match updateTrackJobStatus exStorage 1 JobStatus.completed 1 with
  | .ok p => p.1
  | .error _ => emptyStorage

/-- The job record held by `c4storage` under id 1. -/
def c4job : TrackJob :=
  { id := 1, filename := "test.csv", totalCount := 0, processedCount := 0,
    status := JobStatus.completed, createdAt := 0, updatedAt := 1 }

/-- The status update used by the C10 witness. -/
def c10statusRun : Except String (MemStorage × TrackJob) :=
  updateTrackJobStatus exStorage 1 JobStatus.paused 5

/-- The store produced by `c10statusRun`. -/
def c10s1 : MemStorage :=
  match c10statusRun with
  | .ok p => p.1
  | .error _ => emptyStorage

/-- The job returned by `c10statusRun`. -/
def c10j1 : TrackJob :=
  match c10statusRun with
  | .ok p => p.2
  | .error _ => exJob1

/-! ## Helper lemmas -/

theorem mapGet_mapSet_self {α : Type} (m : List (Nat × α)) (k : Nat) (v : α) :
    mapGet (mapSet m k v) k = some v := by
  induction m with
  | nil => simp [mapGet, mapSet]
  | cons p rest ih =>
    obtain ⟨k1, v1⟩ := p
    by_cases h : k1 = k <;> simp [mapGet, mapSet, h, ih]

theorem mapGet_mapSet_ne {α : Type} (m : List (Nat × α)) (k k2 : Nat) (v : α)
    (h : k2 ≠ k) : mapGet (mapSet m k v) k2 = mapGet m k2 := by
  induction m with
  | nil => simp [mapGet, mapSet, Ne.symm h]
  | cons p rest ih =>
    obtain ⟨k1, v1⟩ := p
    by_cases h1 : k1 = k
    · subst h1
      simp [mapGet, mapSet, Ne.symm h]
    · simp [mapGet, mapSet, h1, ih]

theorem updateTrackJobStatus_eq (s : MemStorage) (id : Nat) (st : JobStatus) (now : Nat)
    (j0 : TrackJob) (h : getTrackJob s id = some j0) :
    updateTrackJobStatus s id st now =
      .ok ({ s with trackJobs := mapSet s.trackJobs id { j0 with status := st, updatedAt := now } },
        { j0 with status := st, updatedAt := now }) := by
  simp [updateTrackJobStatus, h]

theorem updateTrackJobProgress_eq (s : MemStorage) (id : Nat) (pc now : Nat)
    (j0 : TrackJob) (h : getTrackJob s id = some j0) :
    updateTrackJobProgress s id pc now =
      .ok ({ s with trackJobs := mapSet s.trackJobs id { j0 with processedCount := pc, updatedAt := now } },
        { j0 with processedCount := pc, updatedAt := now }) := by
  simp [updateTrackJobProgress, h]

theorem getTrackJob_set_self (s : MemStorage) (id : Nat) (j : TrackJob) :
    getTrackJob { s with trackJobs := mapSet s.trackJobs id j } id = some j := by
  simp [getTrackJob, mapGet_mapSet_self]

theorem getTrackJob_createTrackResult (s : MemStorage) (ins : InsertTrackResult)
    (now id : Nat) :
    getTrackJob (createTrackResult s ins now).1 id = getTrackJob s id := rfl

theorem validRow_false (mawb : String)
    (hv : (splitMAWB mawb).1 = "" ∨ (splitMAWB mawb).2 = "") :
    validRow mawb = false := by
  simp only [validRow, Bool.not_eq_false', Bool.or_eq_true, decide_eq_true_eq]
  exact hv

theorem validRow_true (mawb : String)
    (hv : ¬((splitMAWB mawb).1 = "" ∨ (splitMAWB mawb).2 = "")) :
    validRow mawb = true := by
  simp only [validRow, Bool.not_eq_true', Bool.or_eq_false_iff, decide_eq_false_iff_not]
  push_neg at hv
  exact ⟨hv.1, hv.2⟩

theorem rowStep_ok (jobId total : Nat) (oracle : Nat → Except String TrackLookup)
    (s : LoopSt) (mawb : String) (j0 : TrackJob)
    (h : getTrackJob s.store jobId = some j0) :
    ∃ s1, rowStep jobId total oracle s mawb = .ok s1 ∧
      s1.events = s.events ++ rowEvents jobId total oracle s.pc mawb ∧
      s1.pc = s.pc + 1 ∧
      ∃ j1, getTrackJob s1.store jobId = some j1 ∧
        j1.processedCount = (if validRow mawb then s.pc + 1 else j0.processedCount) := by
  by_cases hv : (splitMAWB mawb).1 = "" ∨ (splitMAWB mawb).2 = ""
  · refine ⟨{ s with
          pc := s.pc + 1,
          events := s.events ++ rowEvents jobId total oracle s.pc mawb },
      ?_, rfl, rfl, j0, h, ?_⟩
    · simp only [rowStep, rowEvents, if_pos hv]
    · simp [validRow_false mawb hv]
  · cases ho : oracle s.pc with
    | ok r =>
      have hpres : getTrackJob (createTrackResult s.store
          (toInsertResult mawb (splitMAWB mawb).1 (splitMAWB mawb).2 r) s.clock).1 jobId
          = some j0 := h
      refine ⟨{
          store :=
            { (createTrackResult s.store
                (toInsertResult mawb (splitMAWB mawb).1 (splitMAWB mawb).2 r) s.clock).1 with
              trackJobs := mapSet
                (createTrackResult s.store
                  (toInsertResult mawb (splitMAWB mawb).1 (splitMAWB mawb).2 r) s.clock).1.trackJobs
                jobId { j0 with processedCount := s.pc + 1, updatedAt := s.clock + 1 } },
          events := s.events ++ rowEvents jobId total oracle s.pc mawb,
          pc := s.pc + 1,
          clock := s.clock + 1 + 1 },
        ?_, rfl, rfl,
        { j0 with processedCount := s.pc + 1, updatedAt := s.clock + 1 },
        getTrackJob_set_self _ jobId _, ?_⟩
      · simp only [rowStep, if_neg hv, ho]
        rw [updateTrackJobProgress_eq _ _ _ _ _ hpres]
        simp [rowEvents, if_neg hv, ho, List.append_assoc]
      · simp [validRow_true mawb hv]
    | error e =>
      refine ⟨{
          store :=
            { s.store with
              trackJobs := mapSet s.store.trackJobs
                jobId { j0 with processedCount := s.pc + 1, updatedAt := s.clock } },
          events := s.events ++ rowEvents jobId total oracle s.pc mawb,
          pc := s.pc + 1,
          clock := s.clock + 1 },
        ?_, rfl, rfl,
        { j0 with processedCount := s.pc + 1, updatedAt := s.clock },
        getTrackJob_set_self _ jobId _, ?_⟩
      · simp only [rowStep, if_neg hv, ho]
        rw [updateTrackJobProgress_eq _ _ _ _ _ h]
        simp [rowEvents, if_neg hv, ho, List.append_assoc]
      · simp [validRow_true mawb hv]

theorem runRows_ok (jobId total : Nat) (oracle : Nat → Except String TrackLookup)
    (rows : List String) :
    ∀ (s : LoopSt) (j0 : TrackJob),
      getTrackJob s.store jobId = some j0 →
      ∃ s1 j1, runRows jobId total oracle s rows = .ok s1 ∧
        s1.events = s.events ++ traceFrom jobId total oracle s.pc rows ∧
        s1.pc = s.pc + rows.length ∧
        getTrackJob s1.store jobId = some j1 ∧
        j1.processedCount = lastPersisted s.pc rows j0.processedCount := by
  induction rows with
  | nil =>
    intro s j0 h
    exact ⟨s, j0, rfl, by simp [traceFrom], by simp, h, by simp [lastPersisted]⟩
  | cons r rs ih =>
    intro s j0 h
    obtain ⟨sa, hstep, hev, hpc, ja, hja, hjapc⟩ := rowStep_ok jobId total oracle s r j0 h
    obtain ⟨s1, j1, hrun, hev1, hpc1, hj1, hj1pc⟩ := ih sa ja hja
    refine ⟨s1, j1, ?_, ?_, ?_, hj1, ?_⟩
    · simp [runRows, hstep, hrun]
    · rw [hev1, hev, hpc]
      simp [traceFrom, List.append_assoc]
    · rw [hpc1, hpc]
      simp [List.length_cons]
      omega
    · rw [hj1pc, hpc, hjapc]
      simp [lastPersisted]

theorem processCSVFile_ok (store0 : MemStorage) (jobId : Nat) (records : List String)
    (oracle : Nat → Except String TrackLookup) (clock0 : Nat) (j0 : TrackJob)
    (h : getTrackJob store0 jobId = some j0) :
    ∃ out jf, processCSVFile store0 jobId records oracle clock0 = .ok out ∧
      out.events = traceFrom jobId records.length oracle 0 records ++
        [{ jobId := jobId,
           payload := EvPayload.complete
             ("Tracking completed. Processed " ++ toString records.length ++ " records.") }] ∧
      out.pc = records.length ∧
      getTrackJob out.store jobId = some jf ∧
      jf.status = JobStatus.completed ∧
      jf.processedCount = lastPersisted 0 records j0.processedCount := by
  have h1 := updateTrackJobStatus_eq store0 jobId JobStatus.processing clock0 j0 h
  have hp1 : getTrackJob
      { store0 with trackJobs := mapSet store0.trackJobs jobId { j0 with status := JobStatus.processing, updatedAt := clock0 } } jobId =
      some { j0 with status := JobStatus.processing, updatedAt := clock0 } :=
    getTrackJob_set_self _ _ _
  obtain ⟨s1, j1, hrun, hev, hpc, hj1, hj1pc⟩ :=
    runRows_ok jobId records.length oracle records
      { store := { store0 with trackJobs := mapSet store0.trackJobs jobId { j0 with status := JobStatus.processing, updatedAt := clock0 } },
        events := [], pc := 0, clock := clock0 + 1 } _ hp1
  have h2 := updateTrackJobStatus_eq s1.store jobId JobStatus.completed s1.clock j1 hj1
  refine ⟨{
      store := { s1.store with trackJobs := mapSet s1.store.trackJobs jobId { j1 with status := JobStatus.completed, updatedAt := s1.clock } },
      events := s1.events ++
        [{ jobId := jobId,
           payload := EvPayload.complete
             ("Tracking completed. Processed " ++ toString s1.pc ++ " records.") }],
      pc := s1.pc },
    { j1 with status := JobStatus.completed, updatedAt := s1.clock },
    ?_, ?_, ?_, getTrackJob_set_self _ _ _, rfl, ?_⟩
  · simp only [processCSVFile, h1, hrun, h2]
  · dsimp only
    rw [hev, hpc]
    simp [traceFrom]
  · dsimp only
    rw [hpc]
    simp
  · dsimp only
    rw [hj1pc]

theorem traceFrom_filter_progress (jobId total : Nat)
    (oracle : Nat → Except String TrackLookup) (rows : List String) :
    ∀ start : Nat,
      (traceFrom jobId total oracle start rows).filterMap progressCurrentOf =
        (validIndicesFrom start rows).map (fun i => i + 1) := by
  induction rows with
  | nil => intro start; simp [traceFrom, validIndicesFrom]
  | cons r rs ih =>
    intro start
    by_cases hv : (splitMAWB r).1 = "" ∨ (splitMAWB r).2 = ""
    · simp [traceFrom, validIndicesFrom, rowEvents, if_pos hv, validRow_false r hv,
        List.filterMap_append, ih, progressCurrentOf, logEv]
    · cases ho : oracle start with
      | ok v =>
        simp [traceFrom, validIndicesFrom, rowEvents, if_neg hv, validRow_true r hv, ho,
          List.filterMap_append, ih, progressCurrentOf, logEv]
      | error e =>
        simp [traceFrom, validIndicesFrom, rowEvents, if_neg hv, validRow_true r hv, ho,
          List.filterMap_append, ih, progressCurrentOf, logEv]

theorem mem_traceFrom (jobId total : Nat) (oracle : Nat → Except String TrackLookup)
    (x : Ev) (rows : List String) :
    ∀ (start i : Nat), i < rows.length →
      x ∈ rowEvents jobId total oracle (start + i) (rows.getD i "") →
      x ∈ traceFrom jobId total oracle start rows := by
  induction rows with
  | nil =>
    intro start i hi
    simp at hi
  | cons r rs ih =>
    intro start i hi hx
    cases i with
    | zero =>
      refine List.mem_append_left _ ?_
      simpa using hx
    | succ n =>
      refine List.mem_append_right _ (ih (start + 1) n ?_ ?_)
      · simpa [Nat.succ_lt_succ_iff] using hi
      · have harith : start + (n + 1) = start + 1 + n := by omega
        simpa [harith] using hx

theorem mem_rowEvents_info (jobId total i : Nat) (oracle : Nat → Except String TrackLookup)
    (mawb : String) (hv : ¬((splitMAWB mawb).1 = "" ∨ (splitMAWB mawb).2 = "")) :
    logEv jobId ("[Row " ++ toString (i + 1) ++ "] Tracking MAWB: " ++ mawb ++
        " (prefix: " ++ (splitMAWB mawb).1 ++ ", awbno: " ++ (splitMAWB mawb).2 ++ ")")
      LogLevel.info ∈ rowEvents jobId total oracle i mawb := by
  cases ho : oracle i <;> simp [rowEvents, if_neg hv, ho]

theorem mem_rowEvents_progress (jobId total i : Nat)
    (oracle : Nat → Except String TrackLookup) (mawb : String)
    (hv : ¬((splitMAWB mawb).1 = "" ∨ (splitMAWB mawb).2 = "")) :
    ({ jobId := jobId, payload := EvPayload.progress (i + 1) total } : Ev) ∈
      rowEvents jobId total oracle i mawb := by
  cases ho : oracle i <;> simp [rowEvents, if_neg hv, ho]

theorem mem_rowEvents_error (jobId total i : Nat)
    (oracle : Nat → Except String TrackLookup) (mawb e : String)
    (hv : ¬((splitMAWB mawb).1 = "" ∨ (splitMAWB mawb).2 = ""))
    (ho : oracle i = .error e) :
    logEv jobId ("[Row " ++ toString (i + 1) ++ "] Error tracking " ++ mawb ++ ": " ++ e)
      LogLevel.error ∈ rowEvents jobId total oracle i mawb := by
  simp [rowEvents, if_neg hv, ho]

theorem splitHyphen_length (l : List Char) :
    (splitHyphen l).length = hyphenCount l + 1 := by
  induction l with
  | nil => simp [splitHyphen, hyphenCount]
  | cons c rest ih =>
    cases hs : splitHyphen rest with
    | nil => rw [hs] at ih; simp at ih
    | cons hd tl =>
      rw [hs] at ih
      by_cases hc : c = '-'
      · simp only [splitHyphen, hyphenCount, hs, if_pos hc, List.length_cons] at ih ⊢
        omega
      · simp only [splitHyphen, hyphenCount, hs, if_neg hc, List.length_cons] at ih ⊢
        omega

theorem splitHyphen_count_zero (l : List Char) (h : hyphenCount l = 0) :
    splitHyphen l = [l] := by
  induction l with
  | nil => simp [splitHyphen]
  | cons c rest ih =>
    have hc : ¬ c = '-' := by
      intro he
      simp [hyphenCount, he] at h
    have hrest : hyphenCount rest = 0 := by
      simpa [hyphenCount, hc] using h
    simp [splitHyphen, ih hrest, hc]

theorem splitHyphen_count_one (l : List Char) (h : hyphenCount l = 1) :
    splitHyphen l = [beforeHyphen l, afterHyphen l] := by
  induction l with
  | nil => simp [hyphenCount] at h
  | cons c rest ih =>
    by_cases hc : c = '-'
    · have hrest : hyphenCount rest = 0 := by
        simpa [hyphenCount, hc] using h
      simp [splitHyphen, splitHyphen_count_zero rest hrest, hc, beforeHyphen, afterHyphen]
    · have hrest : hyphenCount rest = 1 := by
        simpa [hyphenCount, hc] using h
      simp [splitHyphen, ih hrest, hc, beforeHyphen, afterHyphen]

/-! ## Claim theorems -/

/-- C7 (counterexample): the claim requires two NON-EMPTY hyphen parts for
the verbatim return, sending `"-12345678901"` to the regex branch, whose
groups are `("123", "45678901")`; the code accepts any two-part split, empty
parts included, and returns `("", "12345678901")` — so the claim, as stated,
is false at this input. -/
theorem claim_c7_counterexample :
    splitMAWB "-12345678901" = ("", "12345678901") ∧
    splitSpecClaim "-12345678901" = ("123", "45678901") ∧
    splitMAWB "-12345678901" ≠ splitSpecClaim "-12345678901" := by
  decide

/-- C7 (amended): for every input string the Identifier Splitter, after
trimming whitespace and stripping internal spaces, returns the two parts
verbatim if and only if the string splits on a single hyphen into exactly
two parts — possibly empty; otherwise it returns the groups of the first
unanchored match of three digits, optional hyphen-or-space separator, then
eight digits; otherwise it returns both parts empty. -/
theorem claim_c7_amended (s : String) : splitMAWB s = splitSpecAmended s := by
  simp only [splitMAWB, splitSpecAmended]
  by_cases h1 : hyphenCount (normalizeMAWB s.toList) = 1
  · rw [splitHyphen_count_one _ h1, if_pos h1]
  · rw [if_neg h1]
    have hl := splitHyphen_length (normalizeMAWB s.toList)
    rcases hs : splitHyphen (normalizeMAWB s.toList) with _ | ⟨a, _ | ⟨b, _ | ⟨c, tl⟩⟩⟩
    · rfl
    · rfl
    · rw [hs] at hl
      simp at hl
      exact absurd hl h1
    · rfl

/-- C8 (counterexample): the claim says an out-of-range pacing interval is
clamped into [50, 1000] at the boundary (30 would become 50 and the job
would be created); the code validates instead — a delay of 30 fails the zod
check, the request errors, and no job is created. -/
theorem claim_c8_counterexample :
    trackFileUpload emptyStorage "f.csv" (some 30) 0 =
      Except.error "Number must be greater than or equal to 50" ∧
    claimClampDelay (some 30) = 50 := by
  decide

/-- C8 (amended): the pacing-interval parameter defaults to 100 when absent
and must already lie in [50, 1000]: in-range values pass through unchanged,
out-of-range values make the request fail with an error and no job is
created; on success job creation returns the new job's id with the job
stored as pending. -/
theorem claim_c8_amended :
    parseDelayParam none = Except.ok 100 ∧
    (∀ v : Int, 50 ≤ v → v ≤ 1000 → parseDelayParam (some v) = Except.ok v) ∧
    (∀ v : Int, v < 50 ∨ 1000 < v → ∀ (s : MemStorage) (f : String) (now : Nat),
      ∃ e, trackFileUpload s f (some v) now = Except.error e) ∧
    (∀ (s : MemStorage) (f : String) (d : Option Int) (now : Nat) (s1 : MemStorage)
        (jid : Nat) (delay : Int),
      trackFileUpload s f d now = Except.ok (s1, jid, delay) →
      50 ≤ delay ∧ delay ≤ 1000 ∧ jid = s.currentTrackJobId ∧
      getTrackJob s1 jid = some
        { id := jid, filename := f, totalCount := 0, processedCount := 0,
          status := JobStatus.pending, createdAt := now, updatedAt := now }) := by
  refine ⟨rfl, ?_, ?_, ?_⟩
  · intro v h1 h2
    rw [parseDelayParam, if_neg (by omega), if_neg (by omega)]
  · intro v hv s f now
    rcases hv with h | h
    · exact ⟨"Number must be greater than or equal to 50",
        by simp [trackFileUpload, parseDelayParam, if_pos h]⟩
    · refine ⟨"Number must be less than or equal to 1000", ?_⟩
      rw [trackFileUpload, parseDelayParam, if_neg (by omega), if_pos (by omega)]
  · intro s f d now s1 jid delay heq
    cases hd : parseDelayParam d with
    | error e =>
      rw [trackFileUpload, hd] at heq
      cases heq
    | ok dv =>
      rw [trackFileUpload, hd] at heq
      have hrange : 50 ≤ dv ∧ dv ≤ 1000 := by
        cases d with
        | none =>
          cases hd
          omega
        | some v =>
          rw [parseDelayParam] at hd
          by_cases h1 : v < 50
          · rw [if_pos h1] at hd
            cases hd
          · rw [if_neg h1] at hd
            by_cases h2 : v > 1000
            · rw [if_pos h2] at hd
              cases hd
            · rw [if_neg h2] at hd
              cases hd
              omega
      simp only [Except.ok.injEq, Prod.mk.injEq] at heq
      obtain ⟨hs1, hjid, hdelay⟩ := heq
      subst hs1
      subst hjid
      subst hdelay
      refine ⟨hrange.1, hrange.2, rfl, ?_⟩
      simp [getTrackJob, createTrackJob, mapGet_mapSet_self]

/-- C8 (witness): the amended C8 theorem applied at 500, at the absent
parameter, and at the rejected value 30. -/
theorem claim_c8_amended_witness :
    parseDelayParam (some 500) = Except.ok 500 ∧
    parseDelayParam none = Except.ok 100 ∧
    (∃ e, trackFileUpload emptyStorage "f.csv" (some 30) 0 = Except.error e) :=
  ⟨claim_c8_amended.2.1 500 (by decide) (by decide), claim_c8_amended.1,
    claim_c8_amended.2.2.1 30 (Or.inl (by decide)) emptyStorage "f.csv" 0⟩

/-- C1: a cancel control action arriving at a row boundary (after row 1 of a
3-row job) is never observed by the loop — the job's stored status does
become `cancelled`, yet all three rows are processed, the persisted
processed count reaches 3 (not 1), the final status is overwritten to
`completed`, and the Complete event's message reflects 3 rather than the
cancellation point; no Complete message reflecting 1 is emitted. -/
theorem claim_c1 :
    exCancelRun.map (fun c => c.statusAfterCancel) = Except.ok (some JobStatus.cancelled) ∧
    exCancelRun.map (fun c => c.out.pc) = Except.ok 3 ∧
    exCancelRun.map (fun c => (getTrackJob c.out.store 1).map TrackJob.processedCount) =
      Except.ok (some 3) ∧
    exCancelRun.map (fun c => (getTrackJob c.out.store 1).map TrackJob.status) =
      Except.ok (some JobStatus.completed) ∧
    exCancelRun.map (fun c => c.out.events.contains
      { jobId := 1, payload := EvPayload.complete "Tracking completed. Processed 3 records." }) =
      Except.ok true ∧
    exCancelRun.map (fun c => c.out.events.contains
      { jobId := 1, payload := EvPayload.complete "Tracking completed. Processed 1 records." }) =
      Except.ok false := by
  decide

/-- C2: after the job reaches the terminal status `cancelled` (cancel after
row 1 of 3), the loop nevertheless emits two further Progress events and two
further Result events for that job — the at-most-one-terminal-transition
property is violated by the code. -/
theorem claim_c2 :
    exCancelRun.map (fun c => c.statusAfterCancel) = Except.ok (some JobStatus.cancelled) ∧
    exCancelRun.map
        (fun c => ((c.out.events.drop c.preEvents).filter isProgressEv).length) =
      Except.ok 2 ∧
    exCancelRun.map
        (fun c => ((c.out.events.drop c.preEvents).filter isResultEv).length) =
      Except.ok 2 := by
  decide

/-- C3: `getTrackResultsByJob` ignores its job-id argument entirely (the
result schema has no foreign key to filter on): the query returns the same
list for every job id, so the result persisted during job 1's run is also
returned when querying job 2. -/
theorem claim_c3 :
    (∀ j1 j2 : Nat, getTrackResultsByJob c3storage j1 = getTrackResultsByJob c3storage j2) ∧
    (getTrackResultsByJob c3storage 2).length = 1 :=
  ⟨fun _ _ => rfl, by decide⟩

/-- C4 (counterexample): applying `pause` to a job that is not `processing`
(here: `completed`, a terminal state) does not report an error and is not a
no-op — the call succeeds and mutates the job's status to `paused`. -/
theorem claim_c4_counterexample :
    (getTrackJob c4storage 1).map TrackJob.status = some JobStatus.completed ∧
    (controlJob c4storage 1 ControlAction.pause 2).map
        (fun p => (getTrackJob p.1 1).map TrackJob.status) =
      Except.ok (some JobStatus.paused) := by
  decide

/-- C4 (amended): for every control action whose target job exists, the
handler performs no validation of the current state: it unconditionally sets
the job's status to paused/processing/cancelled for pause/resume/cancel
respectively and returns the updated job — the job is mutated even when the
action is invalid for its current state. -/
theorem claim_c4_amended (s : MemStorage) (jobId : Nat) (a : ControlAction) (now : Nat)
    (j0 : TrackJob) (h : getTrackJob s jobId = some j0) :
    controlJob s jobId a now = Except.ok
      ({ s with trackJobs := mapSet s.trackJobs jobId { j0 with status := actionStatus a, updatedAt := now } },
       { j0 with status := actionStatus a, updatedAt := now }) := by
  simp [controlJob, h, updateTrackJobStatus]

/-- C4 (witness): the amended C4 theorem applied to a completed job and the
pause action. -/
theorem claim_c4_amended_witness :
    controlJob c4storage 1 ControlAction.pause 2 = Except.ok
      ({ c4storage with trackJobs := mapSet c4storage.trackJobs 1 { c4job with status := actionStatus ControlAction.pause, updatedAt := 2 } },
       { c4job with status := actionStatus ControlAction.pause, updatedAt := 2 }) :=
  claim_c4_amended c4storage 1 ControlAction.pause 2 c4job (by decide)

/-- C5 (counterexample): a visited row whose identifier fails to parse
(single-row input `"bad"`) increments only the loop-local counter: the run
emits no Progress event at all and the persisted processed count stays 0,
although one row was visited — the claim's per-row persist-and-emit is false
at this input. -/
theorem claim_c5_counterexample :
    exRunInvalid.map (fun o => (o.events.filter isProgressEv).length) = Except.ok 0 ∧
    exRunInvalid.map (fun o => (getTrackJob o.store 1).map TrackJob.processedCount) =
      Except.ok (some 0) ∧
    exRunInvalid.map (fun o => o.pc) = Except.ok 1 ∧
    exRunInvalid.map (fun o => o.events.contains
      (logEv 1 "[Row 1] Skipping invalid MAWB: bad" LogLevel.warn)) = Except.ok true := by
  decide

/-- C5 (amended): only rows whose identifier parses reach the
persist-and-emit step: the run emits exactly one Progress event per parsing
row, whose current equals the number of rows visited so far including
skipped ones (its 1-based position), and the persisted processed count after
the run is the 1-based position of the last parsing row (unchanged when no
row parses); a row that fails to parse emits only the warn log and skips
both the persist and the Progress event. -/
theorem claim_c5_amended (store0 : MemStorage) (jobId : Nat) (records : List String)
    (oracle : Nat → Except String TrackLookup) (clock0 : Nat) (j0 : TrackJob)
    (h : getTrackJob store0 jobId = some j0) :
    ∃ out jf, processCSVFile store0 jobId records oracle clock0 = .ok out ∧
      out.events.filterMap progressCurrentOf =
        (validIndicesFrom 0 records).map (fun i => i + 1) ∧
      out.pc = records.length ∧
      getTrackJob out.store jobId = some jf ∧
      jf.processedCount = lastPersisted 0 records j0.processedCount := by
  obtain ⟨out, jf, heq, hev, hpc, hjf, _, hjfpc⟩ :=
    processCSVFile_ok store0 jobId records oracle clock0 j0 h
  refine ⟨out, jf, heq, ?_, hpc, hjf, hjfpc⟩
  rw [hev]
  simp [List.filterMap_append, traceFrom_filter_progress, progressCurrentOf]

/-- C5 (witness): the amended C5 theorem applied to the two-row input
`["111-22222222", "bad"]` over the always-succeeding lookup oracle. -/
theorem claim_c5_amended_witness :
    ∃ out jf, processCSVFile exStorage 1 ["111-22222222", "bad"] exOracleOK 0 = .ok out ∧
      out.events.filterMap progressCurrentOf =
        (validIndicesFrom 0 ["111-22222222", "bad"]).map (fun i => i + 1) ∧
      out.pc = (["111-22222222", "bad"] : List String).length ∧
      getTrackJob out.store 1 = some jf ∧
      jf.processedCount = lastPersisted 0 ["111-22222222", "bad"] exJob1.processedCount :=
  claim_c5_amended exStorage 1 ["111-22222222", "bad"] exOracleOK 0 exJob1 (by decide)

/-- C6: the total row count is computed into a local variable but never
persisted (the job keeps the `totalCount := 0` it was created with, despite
the route's comment that it "will be updated during processing"), so already
after the first processed row of a one-row file the persisted processed
count (1) exceeds the persisted total count (0). -/
theorem claim_c6 :
    exRunSingle.map
        (fun o => (getTrackJob o.store 1).map (fun j => (j.processedCount, j.totalCount))) =
      Except.ok (some (1, 0)) ∧
    exRunSingle.map
        (fun o => (getTrackJob o.store 1).map (fun j => decide (j.totalCount < j.processedCount))) =
      Except.ok (some true) := by
  decide

/-- C9: when the lookup for row `i` (0-based; a row whose identifier parses)
throws, the run still completes: the trace contains a Log event of level
error naming row `i + 1` and the error detail, the progress event for row
`i + 1` is still emitted (the catch falls through to the progress step), and
every later parsing row `j` is still attempted (its Tracking info log is in
the trace). -/
theorem claim_c9 (store0 : MemStorage) (jobId : Nat) (records : List String)
    (oracle : Nat → Except String TrackLookup) (clock0 i : Nat) (e : String) (j0 : TrackJob)
    (hjob : getTrackJob store0 jobId = some j0)
    (hi : i < records.length)
    (hvalid : ¬((splitMAWB (records.getD i "")).1 = "" ∨ (splitMAWB (records.getD i "")).2 = ""))
    (herr : oracle i = .error e) :
    ∃ out, processCSVFile store0 jobId records oracle clock0 = .ok out ∧
      logEv jobId
        ("[Row " ++ toString (i + 1) ++ "] Error tracking " ++ records.getD i "" ++ ": " ++ e)
        LogLevel.error ∈ out.events ∧
      ({ jobId := jobId, payload := EvPayload.progress (i + 1) records.length } : Ev) ∈
        out.events ∧
      ∀ j, i < j → j < records.length →
        ¬((splitMAWB (records.getD j "")).1 = "" ∨ (splitMAWB (records.getD j "")).2 = "") →
        logEv jobId
          ("[Row " ++ toString (j + 1) ++ "] Tracking MAWB: " ++ records.getD j "" ++
            " (prefix: " ++ (splitMAWB (records.getD j "")).1 ++
            ", awbno: " ++ (splitMAWB (records.getD j "")).2 ++ ")")
          LogLevel.info ∈ out.events := by
  obtain ⟨out, jf, heq, hev, _, _, _, _⟩ :=
    processCSVFile_ok store0 jobId records oracle clock0 j0 hjob
  refine ⟨out, heq, ?_, ?_, ?_⟩
  · rw [hev]
    refine List.mem_append_left _ ?_
    refine mem_traceFrom jobId records.length oracle _ records 0 i hi ?_
    simpa using mem_rowEvents_error jobId records.length i oracle _ e hvalid herr
  · rw [hev]
    refine List.mem_append_left _ ?_
    refine mem_traceFrom jobId records.length oracle _ records 0 i hi ?_
    simpa using mem_rowEvents_progress jobId records.length i oracle _ hvalid
  · intro j hij hj hvj
    rw [hev]
    refine List.mem_append_left _ ?_
    refine mem_traceFrom jobId records.length oracle _ records 0 j hj ?_
    simpa using mem_rowEvents_info jobId records.length j oracle _ hvj

/-- C9 (witness): the C9 theorem applied to a two-row input whose first
lookup throws `"network timeout"`. -/
theorem claim_c9_witness :
    ∃ out, processCSVFile exStorage 1 ["111-22222222", "222-33333333"] exOracleFail0 0 = .ok out ∧
      logEv 1 ("[Row " ++ toString (0 + 1) ++ "] Error tracking " ++
          (["111-22222222", "222-33333333"] : List String).getD 0 "" ++ ": " ++ "network timeout")
        LogLevel.error ∈ out.events ∧
      ({ jobId := 1,
         payload := EvPayload.progress (0 + 1)
           (["111-22222222", "222-33333333"] : List String).length } : Ev) ∈ out.events ∧
      ∀ j, 0 < j → j < (["111-22222222", "222-33333333"] : List String).length →
        ¬((splitMAWB ((["111-22222222", "222-33333333"] : List String).getD j "")).1 = "" ∨
          (splitMAWB ((["111-22222222", "222-33333333"] : List String).getD j "")).2 = "") →
        logEv 1
          ("[Row " ++ toString (j + 1) ++ "] Tracking MAWB: " ++
            (["111-22222222", "222-33333333"] : List String).getD j "" ++
            " (prefix: " ++ (splitMAWB ((["111-22222222", "222-33333333"] : List String).getD j "")).1 ++
            ", awbno: " ++ (splitMAWB ((["111-22222222", "222-33333333"] : List String).getD j "")).2 ++ ")")
          LogLevel.info ∈ out.events :=
  claim_c9 exStorage 1 ["111-22222222", "222-33333333"] exOracleFail0 0 0 "network timeout"
    exJob1 (by decide) (by decide) (by decide) (by decide)

/-- C10: `updateTrackJobStatus` changes only the status and updatedAt fields
of the addressed job and `updateTrackJobProgress` changes only the
processedCount and updatedAt fields; in both, the job's other fields, every
other job, the results table, and the id counters are unchanged. -/
theorem claim_c10 (s : MemStorage) (id : Nat) (st : JobStatus) (pc now : Nat) :
    (∀ s1 j, updateTrackJobStatus s id st now = .ok (s1, j) →
      ∃ j0, getTrackJob s id = some j0 ∧
        j = { j0 with status := st, updatedAt := now } ∧
        getTrackJob s1 id = some j ∧
        (∀ k, k ≠ id → getTrackJob s1 k = getTrackJob s k) ∧
        s1.trackResults = s.trackResults ∧
        s1.currentTrackResultId = s.currentTrackResultId ∧
        s1.currentTrackJobId = s.currentTrackJobId) ∧
    (∀ s1 j, updateTrackJobProgress s id pc now = .ok (s1, j) →
      ∃ j0, getTrackJob s id = some j0 ∧
        j = { j0 with processedCount := pc, updatedAt := now } ∧
        getTrackJob s1 id = some j ∧
        (∀ k, k ≠ id → getTrackJob s1 k = getTrackJob s k) ∧
        s1.trackResults = s.trackResults ∧
        s1.currentTrackResultId = s.currentTrackResultId ∧
        s1.currentTrackJobId = s.currentTrackJobId) := by
  constructor
  · intro s1 j heq
    cases hj : getTrackJob s id with
    | none => simp [updateTrackJobStatus, hj] at heq
    | some j0 =>
      rw [updateTrackJobStatus_eq s id st now j0 hj] at heq
      simp only [Except.ok.injEq, Prod.mk.injEq] at heq
      obtain ⟨hs1, hjeq⟩ := heq
      subst hs1
      subst hjeq
      refine ⟨j0, rfl, rfl, getTrackJob_set_self _ _ _, ?_, rfl, rfl, rfl⟩
      intro k hk
      simp [getTrackJob, mapGet_mapSet_ne _ _ _ _ hk]
  · intro s1 j heq
    cases hj : getTrackJob s id with
    | none => simp [updateTrackJobProgress, hj] at heq
    | some j0 =>
      rw [updateTrackJobProgress_eq s id pc now j0 hj] at heq
      simp only [Except.ok.injEq, Prod.mk.injEq] at heq
      obtain ⟨hs1, hjeq⟩ := heq
      subst hs1
      subst hjeq
      refine ⟨j0, rfl, rfl, getTrackJob_set_self _ _ _, ?_, rfl, rfl, rfl⟩
      intro k hk
      simp [getTrackJob, mapGet_mapSet_ne _ _ _ _ hk]

/-- C10 (witness): the C10 frame theorem applied to the concrete status
update `c10statusRun` on the one-job store. -/
theorem claim_c10_witness :
    ∃ j0, getTrackJob exStorage 1 = some j0 ∧
      c10j1 = { j0 with status := JobStatus.paused, updatedAt := 5 } ∧
      getTrackJob c10s1 1 = some c10j1 ∧
      (∀ k, k ≠ 1 → getTrackJob c10s1 k = getTrackJob exStorage k) ∧
      c10s1.trackResults = exStorage.trackResults ∧
      c10s1.currentTrackResultId = exStorage.currentTrackResultId ∧
      c10s1.currentTrackJobId = exStorage.currentTrackJobId :=
  (claim_c10 exStorage 1 JobStatus.paused 7 5).1 c10s1 c10j1 (by decide)

end Merlin
